import Mathlib

/-
Verification of the HexPaste delivery scheduler (Source/HexPaste.py).

The plugin pastes a list of lines, one line per timer tick, into a chat
destination.  The embedding below translates the Python source:

  * `MessageContext`   <-> class MessageContext (structural identity of a
                           destination: id / network / server / channel).
  * `Message`          <-> class Message (a delivery job: lines, cursor
                           `line_number`, `total_lines`, `speed`, timer
                           `hook`, and the two-valued `state`).
  * `World`            <-> the process state visible to the plugin: the
                           HexPaste singleton's `targets` dictionary plus
                           the host effects (hexchat.prnt output, lines said
                           via `say`, and a counter producing fresh timer
                           handles for hexchat.hook_timer).
  * `HexPaste.paste` / `HexPaste.stop` / `HexPaste.resume` /
    `HexPaste.remove_target`  <-> the scheduler methods.
  * `Message.tick`     <-> Message.tick; the reachability of the context
                           (find_hexchat_context returning an object or
                           None) is an external input, passed as a Bool.
  * `hexpaste_cb` and the per-command callbacks <-> the command layer;
    Python exceptions are modelled by `Except Exc`, where `Exc.hex`
    is a HexPasteError instance and `Exc.other` any other exception
    (carrying its traceback text).

Python raises an exception before performing any mutation in every
operation of this file, so modelling an operation as
`World -> World × Except Exc α` (state kept on error) is faithful; the one
exception is `Message.tick`, whose unreachable branch prints before calling
`self.stop()`, and which is therefore given the type
`World -> World × Except Exc (Message × Nat)` so that an error still
carries the already-performed prints.
-/

set_option autoImplicit false

/-- Python `str.rstrip()` whitespace test, restricted to the ASCII
whitespace characters (space, tab 9, LF 10, VT 11, FF 12, CR 13). -/
def isPySpace (c : Char) : Bool :=
  c = ' ' || (9 ≤ c.toNat && c.toNat ≤ 13)

/-- Python `line.rstrip()`: drop trailing whitespace characters. -/
def pyRstrip (s : String) : String :=
  ⟨(s.data.reverse.dropWhile isPySpace).reverse⟩

/-- Exception classes reaching the dispatch boundary: `hex` is a
`HexPasteError` (carrying `str(err)`), `other` any other Python exception
(carrying its formatted traceback). -/
inductive Exc where
  | hex (msg : String)
  | other (tb : String)
deriving DecidableEq

/-- Test whether an exception is a HexPasteError instance. -/
def Exc.isHexPasteError : Exc → Bool
  | Exc.hex _ => true
  | Exc.other _ => false

/-- class MessageContext: structural identity of a destination
(HexPaste.py lines 73-118).  Equality and hash are structural over the
four fields, matching `__eq__` and `__hash__`. -/
structure MessageContext where
  id : Nat
  network : String
  server : String
  channel : String
deriving DecidableEq

/-- `MessageContext.__str__`: `'{} - {}'.format(self.channel, self.network)`. -/
def MessageContext.str (c : MessageContext) : String :=
  c.channel ++ " - " ++ c.network

/-- The two values of `Message.state`: the strings `'paste'` and `'stop'`. -/
inductive MState where
  | paste
  | stop
deriving DecidableEq

/-- class Message (HexPaste.py lines 121-190): the state of one delivery
job.  `hook` is the timer handle returned by hexchat.hook_timer. -/
structure Message where
  context : MessageContext
  lines : List String
  line_number : Nat
  total_lines : Nat
  speed : Int
  hook : Option Nat
  state : MState
deriving DecidableEq

/-- `Message.__init__(parent, context, lines, speed)`; the parent back
pointer is represented by operating on `World` below. -/
def Message.init (context : MessageContext) (lines : List String) (speed : Int) : Message :=
  { context := context, lines := lines, line_number := 0,
    total_lines := lines.length, speed := speed,
    hook := none, state := MState.stop }

/-- `Message.remaining_lines` property: `total_lines - line_number`. -/
def Message.remaining_lines (m : Message) : Nat :=
  m.total_lines - m.line_number

/-- Diagnostic strings printed by the plugin, as formatted by the source. -/
def alreadyPastingMsg (c : MessageContext) : String :=
  "HexPaste: already pasting to: " ++ c.str ++ "."

def notPastingMsg (c : MessageContext) : String :=
  "HexPaste: not pasting to: " ++ c.str ++ "."

def unreachableMsg (c : MessageContext) : String :=
  "HexPaste: stopping, target unreachable: " ++ c.str ++ "."

def internalErrorMsg : String :=
  "HexPaste: internal error, removing unknown context?!"

def finishedMsg (c : MessageContext) : String :=
  "HexPaste: finished pasting to: " ++ c.str ++ "."

def replacingMsg (c : MessageContext) : String :=
  "HexPaste: replacing message to: " ++ c.str ++ "."

def pastingMsg (n : Nat) (c : MessageContext) : String :=
  "HexPaste: pasting (" ++ toString n ++ " lines) to: " ++ c.str ++ "."

def stoppedMsg (n : Nat) (c : MessageContext) : String :=
  "HexPaste: stopped pasting (" ++ toString n ++ " pending lines) to: " ++ c.str ++ "."

def resumedMsg (n : Nat) (c : MessageContext) : String :=
  "HexPaste: resumed pasting (" ++ toString n ++ " pending lines) to: " ++ c.str ++ "."

/-- The process state: the HexPaste singleton's `targets` dictionary
(as a map from contexts to jobs) together with the host-visible effects:
`prints` (hexchat.prnt output, in order), `sent` (the `say` payloads, with
their context, in order), and `nextHook` (fresh handles for hook_timer). -/
structure World where
  targets : MessageContext → Option Message
  prints : List String
  sent : List (MessageContext × String)
  nextHook : Nat

/-- `self.targets[context] = m` on a dictionary. -/
def World.insert (w : World) (context : MessageContext) (m : Message) : World :=
  { w with targets := fun c => if c = context then some m else w.targets c }

/-- `Message.paste()` (lines 147-153): raise if already pasting, otherwise
register a timer (handle `fresh`) and switch to the `'paste'` state. -/
def Message.paste (m : Message) (fresh : Nat) : Except Exc Message :=
  if m.state = MState.paste then
    Except.error (Exc.hex (alreadyPastingMsg m.context))
  else
    Except.ok { m with hook := some fresh, state := MState.paste }

/-- `Message.stop()` (lines 155-162): raise if not pasting, otherwise
unhook the timer and switch to the `'stop'` state. -/
def Message.stop (m : Message) : Except Exc Message :=
  if m.state = MState.stop then
    Except.error (Exc.hex (notPastingMsg m.context))
  else
    Except.ok { m with hook := none, state := MState.stop }

/-- `Message.maybe_stop()` (lines 164-167): `stop()` guarded by the state
check, so it never raises. -/
def Message.maybe_stop (m : Message) : Except Exc Message :=
  if m.state = MState.paste then m.stop else Except.ok m

/-- `paste_line` (lines 58-68), payload part: rstrip the line and replace
an empty result by a single space. -/
def paste_line_payload (line : String) : String :=
  let stripped := pyRstrip line
  if stripped.length = 0 then " " else stripped

/-- `paste_line` (lines 58-68): say the normalized payload in the given
context; `context.command('say ...')` is modelled by recording the payload
in `sent`. -/
def paste_line (w : World) (hexchat_context : MessageContext) (line : String) : World :=
  { w with sent := w.sent ++ [(hexchat_context, paste_line_payload line)] }

/-- `HexPaste.remove_target(context)` (lines 204-211): raise an internal
error when the context is unknown, otherwise delete the entry and print
the finished diagnostic. -/
def HexPaste.remove_target (w : World) (context : MessageContext) : Except Exc World :=
  if (w.targets context).isSome then
    Except.ok { w with
      targets := fun c => if c = context then none else w.targets c,
      prints := w.prints ++ [finishedMsg context] }
  else
    Except.error (Exc.hex internalErrorMsg)

/-- `Message.tick(userdata)` (lines 169-190).  `reachable` stands for
`self.context.find_hexchat_context()` returning an object (true) or None
(false); the returned Nat is the timer flag (0 = stop recurring,
1 = keep recurring).  Under the job invariant `remaining_lines ≠ 0`
implies `line_number < lines.length`, so `List.getD` is Python's
`self.lines[self.line_number]`. -/
def Message.tick (w : World) (m : Message) (reachable : Bool) :
    World × Except Exc (Message × Nat) :=
  if m.remaining_lines = 0 then
    match HexPaste.remove_target w m.context with
    | Except.error e => (w, Except.error e)
    | Except.ok w' => (w', Except.ok (m, 0))
  else if reachable = false then
    let w1 := { w with prints := w.prints ++ [unreachableMsg m.context] }
    match m.stop with
    | Except.error e => (w1, Except.error e)
    | Except.ok m' => (w1, Except.ok (m', 0))
  else
    (paste_line w m.context (m.lines.getD m.line_number ""),
     Except.ok ({ m with line_number := m.line_number + 1 }, 1))

/-- Common tail of `HexPaste.paste` (lines 223-228): build the Message,
store it in `targets`, start it, print the pasting diagnostic.  In Python
the dictionary entry and the local `message` alias, so the started message
is what the dictionary holds. -/
def HexPaste.paste_go (w : World) (context : MessageContext)
    (lines : List String) (speed : Int) : World × Except Exc Unit :=
  let message := Message.init context lines speed
  match message.paste w.nextHook with
  | Except.error e => (World.insert w context message, Except.error e)
  | Except.ok m' =>
    ({ World.insert w context m' with
        nextHook := w.nextHook + 1,
        prints := w.prints ++ [pastingMsg m'.remaining_lines context] },
     Except.ok ())

/-- `HexPaste.paste(lines, speed)` (lines 213-228): replace any existing
job for the context (stopping it with `maybe_stop` and printing the
replacing diagnostic), then install and start a fresh job. -/
def HexPaste.paste (w : World) (context : MessageContext)
    (lines : List String) (speed : Int) : World × Except Exc Unit :=
  match w.targets context with
  | some old_message =>
    match old_message.maybe_stop with
    | Except.error e => (w, Except.error e)
    | Except.ok _ =>
      HexPaste.paste_go
        { w with prints := w.prints ++ [replacingMsg context] }
        context lines speed
  | none => HexPaste.paste_go w context lines speed

/-- `HexPaste.stop()` (lines 230-241) for a given current context. -/
def HexPaste.stop (w : World) (context : MessageContext) : World × Except Exc Unit :=
  match w.targets context with
  | none => (w, Except.error (Exc.hex (notPastingMsg context)))
  | some message =>
    match message.stop with
    | Except.error e => (w, Except.error e)
    | Except.ok m' =>
      ({ World.insert w context m' with
          prints := w.prints ++ [stoppedMsg m'.remaining_lines context] },
       Except.ok ())

/-- `HexPaste.resume()` (lines 243-254) for a given current context. -/
def HexPaste.resume (w : World) (context : MessageContext) : World × Except Exc Unit :=
  match w.targets context with
  | none => (w, Except.error (Exc.hex (notPastingMsg context)))
  | some message =>
    match message.paste w.nextHook with
    | Except.error e => (w, Except.error e)
    | Except.ok m' =>
      ({ World.insert w context m' with
          nextHook := w.nextHook + 1,
          prints := w.prints ++ [resumedMsg m'.remaining_lines context] },
       Except.ok ())

/-- One firing of the recurring hexchat timer for the job registered at
`context`.  In the source the only Message objects with a live timer are
registry entries whose `hook` is set (a replaced job was stopped by
`maybe_stop`, a completed job's timer died by returning 0), so a system
step looks the job up in the registry, ticks it, and — mirroring Python's
in-place mutation of the shared object — writes the updated job back when
the entry still exists. -/
def World.step (w : World) (context : MessageContext) (reachable : Bool) : World :=
  match w.targets context with
  | none => w
  | some m =>
    if m.hook.isSome then
      match Message.tick w m reachable with
      | (w', Except.ok (m', _r)) =>
        if (w'.targets context).isSome then World.insert w' context m' else w'
      | (w', Except.error _) => w'
    else w

/-- Iterated timer firings for one context; each Bool is that tick's
reachability of the destination. -/
def World.run (w : World) (context : MessageContext) : List Bool → World
  | [] => w
  | r :: rs => World.run (World.step w context r) context rs

/-- Job well-formedness, immediate from `Message.__init__` and preserved
by every operation: `total_lines` caches `len(lines)`, the cursor stays
in bounds, and the timer handle is held exactly in the `'paste'` state. -/
def Message.wf (m : Message) : Prop :=
  m.total_lines = m.lines.length ∧ m.line_number ≤ m.total_lines ∧
    (m.hook.isSome ↔ m.state = MState.paste)

instance (m : Message) : Decidable m.wf := by
  unfold Message.wf; infer_instance

/-- Failures of the external file reader: the two exception types caught
by `file_lines` (OSError, UnicodeDecodeError) and any other exception,
which propagates. -/
inductive FileErr where
  | osError (msg : String)
  | unicodeError (msg : String)
  | otherExc (tb : String)

/-- External inputs of one command invocation: the currently focused
destination and the file system. -/
structure Env where
  currentContext : MessageContext
  readFile : String → Except FileErr (List String)

/-- `file_lines(filepath)` (lines 28-38): wrap OSError/UnicodeDecodeError
as HexPasteError; any other exception propagates unwrapped. -/
def file_lines (env : Env) (filepath : String) : Except Exc (List String) :=
  match env.readFile filepath with
  | Except.ok ls => Except.ok ls
  | Except.error (FileErr.osError err) =>
    Except.error (Exc.hex ("HexPaste: unable to read: " ++ filepath ++ " - " ++ err ++ "."))
  | Except.error (FileErr.unicodeError err) =>
    Except.error (Exc.hex ("HexPaste: unable to read: " ++ filepath ++ " - " ++ err ++ "."))
  | Except.error (FileErr.otherExc tb) => Except.error (Exc.other tb)

/-- `parse_speed(string)` (lines 41-55); `String.toInt?` stands for
Python's `int(string)` with ValueError modelled as `none`. -/
def parse_speed (string : String) : Except Exc Int :=
  match string.toInt? with
  | none => Except.error (Exc.hex ("HexPaste: invalid speed: " ++ string ++ "."))
  | some speed =>
    if speed ≤ 0 then Except.error (Exc.hex "HexPaste: speed must be positive.")
    else Except.ok speed

/-- `hexpaste_file_cb` (lines 265-282): parse filename and optional speed
(default 2500), read the file, hand the lines to the scheduler. -/
def hexpaste_file_cb (env : Env) (w : World) (word : List String) :
    World × Except Exc Unit :=
  if word.length < 3 then (w, Except.error (Exc.hex "HexPaste: no filename."))
  else
    let filepath := word.getD 2 ""
    let speedRes := if 4 ≤ word.length then parse_speed (word.getD 3 "") else Except.ok 2500
    match speedRes with
    | Except.error e => (w, Except.error e)
    | Except.ok speed =>
      match file_lines env filepath with
      | Except.error e => (w, Except.error e)
      | Except.ok lines => HexPaste.paste w env.currentContext lines speed

/-- `hexpaste_stop_cb` (lines 285-292). -/
def hexpaste_stop_cb (env : Env) (w : World) (_word : List String) :
    World × Except Exc Unit :=
  HexPaste.stop w env.currentContext

/-- `hexpaste_resume_cb` (lines 295-300). -/
def hexpaste_resume_cb (env : Env) (w : World) (_word : List String) :
    World × Except Exc Unit :=
  HexPaste.resume w env.currentContext

/-- The rstripped docstrings printed by the help command (quotation marks
of the original text elided; the exact text is irrelevant to the claims). -/
def hexpaste_command_docs : List String :=
  ["\n    /hexpaste file path/to/file [speed]\n      * Paste the lines of that file in the current active channel/query.\n        The default speed is 2500 milliseconds.",
   "\n    /hexpaste stop\n      * Stop pasting to the current active channel/query.\n        After stopping, /hexpaste resume will continue\n        pasting the pending lines.",
   "\n    /hexpaste resume\n      * Continue pasting lines to the current active channel/query.",
   "\n    /hexpaste help\n      * Prints all the available commands."]

/-- `hexpaste_help_cb` (lines 303-311). -/
def hexpaste_help_cb (_env : Env) (w : World) (_word : List String) :
    World × Except Exc Unit :=
  ({ w with prints := w.prints ++ ["HexPaste: available commands:"] ++ hexpaste_command_docs },
   Except.ok ())

/-- The `hexpaste_commands` ordered dictionary (lines 314-317). -/
def hexpaste_commands :
    List (String × (Env → World → List String → World × Except Exc Unit)) :=
  [("file", hexpaste_file_cb), ("stop", hexpaste_stop_cb),
   ("resume", hexpaste_resume_cb), ("help", hexpaste_help_cb)]

/-- The `try` body of `hexpaste_cb` (lines 324-332): validate the verb and
dispatch to the command callback. -/
def hexpaste_cb_body (env : Env) (w : World) (word : List String) :
    World × Except Exc Unit :=
  if word.length < 2 then
    (w, Except.error (Exc.hex "HexPaste: no parameters. See \"/hexpaste help\" for documentation."))
  else
    match hexpaste_commands.lookup (word.getD 1 "") with
    | none =>
      (w, Except.error (Exc.hex "HexPaste: unknown command. See \"/hexpaste help\" for documentation."))
    | some cb => cb env w word

/-- `hexchat.EAT_ALL` (its concrete value in the hexchat API). -/
def EAT_ALL : Nat := 3

/-- The except/finally boundary of `hexpaste_cb` (lines 334-343): a
HexPasteError is printed as its one-line message, any other exception as
its traceback, and EAT_ALL is returned in every case. -/
def dispatchBoundary (res : World × Except Exc Unit) : World × Nat :=
  match res with
  | (w, Except.ok _) => (w, EAT_ALL)
  | (w, Except.error (Exc.hex msg)) => ({ w with prints := w.prints ++ [msg] }, EAT_ALL)
  | (w, Except.error (Exc.other tb)) => ({ w with prints := w.prints ++ [tb] }, EAT_ALL)

/-- `hexpaste_cb` (lines 322-343). -/
def hexpaste_cb (env : Env) (w : World) (word : List String) : World × Nat :=
  dispatchBoundary (hexpaste_cb_body env w word)

/-- The job that `HexPaste.paste` installs and starts: `Message.__init__`
followed by the successful `Message.paste()` with timer handle `fresh`. -/
def startedMessage (ctx : MessageContext) (lines : List String) (speed : Int)
    (fresh : Nat) : Message :=
  { context := ctx, lines := lines, line_number := 0, total_lines := lines.length,
    speed := speed, hook := some fresh, state := MState.paste }

/-- The operations that can reach a delivery job: `Message.paste` (start
or resume, with the fresh timer handle it would receive), `Message.stop`,
and a timer tick with the given reachability of the destination. -/
inductive MOp where
  | startOp (fresh : Nat)
  | stopOp
  | tickOp (reachable : Bool)

/-- Apply one operation to a job.  A raised HexPasteError leaves the job
as it was: in the source, `paste`, `stop` and both raising branches of
`tick` raise before mutating the job. -/
def Message.applyOp (w : World) (m : Message) : MOp → World × Message
  | MOp.startOp fresh =>
    match m.paste fresh with
    | Except.ok m' => (w, m')
    | Except.error _ => (w, m)
  | MOp.stopOp =>
    match m.stop with
    | Except.ok m' => (w, m')
    | Except.error _ => (w, m)
  | MOp.tickOp r =>
    match Message.tick w m r with
    | (w', Except.ok (m', _)) => (w', m')
    | (w', Except.error _) => (w', m)

/-- Apply a sequence of operations to a job. -/
def Message.applyOps (w : World) (m : Message) : List MOp → World × Message
  | [] => (w, m)
  | op :: ops => Message.applyOps (Message.applyOp w m op).1 (Message.applyOp w m op).2 ops

/-
Concrete data for the closed evaluations below.
-/

/-- A concrete destination. -/
def ctx0 : MessageContext :=
  { id := 1, network := "libera", server := "irc.libera.chat", channel := "#chan" }

/-- A second concrete destination. -/
def ctx1 : MessageContext :=
  { id := 2, network := "libera", server := "irc.libera.chat", channel := "#chan2" }

/-- A third concrete destination. -/
def ctx2 : MessageContext :=
  { id := 3, network := "libera", server := "irc.libera.chat", channel := "#chan3" }

/-- The empty process state. -/
def w0 : World :=
  { targets := fun _ => none, prints := [], sent := [], nextHook := 0 }

/-- A concrete active job at `ctx0` with two lines pending. -/
def m0 : Message :=
  { context := ctx0, lines := ["hi", ""], line_number := 0, total_lines := 2,
    speed := 2500, hook := some 0, state := MState.paste }

/-- A concrete active job at `ctx0`. -/
def mA0 : Message :=
  { context := ctx0, lines := ["x"], line_number := 0, total_lines := 1,
    speed := 10, hook := some 0, state := MState.paste }

/-- A concrete idle job at `ctx1`. -/
def mI0 : Message :=
  { context := ctx1, lines := ["y"], line_number := 0, total_lines := 1,
    speed := 10, hook := none, state := MState.stop }

/-- A registry holding the active `mA0`, the idle `mI0`, and no job at
`ctx2`. -/
def wC6 : World :=
  { targets := fun c => if c = ctx0 then some mA0 else if c = ctx1 then some mI0 else none,
    prints := [], sent := [], nextHook := 5 }

/-- A concrete active job at `ctx0` with three lines remaining. -/
def mC4 : Message :=
  { context := ctx0, lines := ["l1", "l2", "l3"], line_number := 0, total_lines := 3,
    speed := 10, hook := some 0, state := MState.paste }

/-- A registry holding only `mC4`. -/
def wC4 : World :=
  { targets := fun c => if c = ctx0 then some mC4 else none,
    prints := [], sent := [], nextHook := 1 }

/-- A concrete registered job whose lines are exhausted. -/
def mDone : Message :=
  { context := ctx0, lines := ["p", "q"], line_number := 2, total_lines := 2,
    speed := 10, hook := some 0, state := MState.paste }

/-- A registry holding only `mDone`. -/
def wDone : World :=
  { targets := fun c => if c = ctx0 then some mDone else none,
    prints := [], sent := [], nextHook := 1 }

/-- A concrete environment whose file reads fail with an OSError. -/
def env0 : Env :=
  { currentContext := ctx0,
    readFile := fun _ => Except.error (FileErr.osError "No such file or directory") }

/-- Scenario of claim C2: paste three lines, deliver one, stop, resume,
deliver the rest. -/
def scenarioW1 : World := (HexPaste.paste w0 ctx0 ["a", "b", "c"] 10).1

def scenarioW2 : World := World.step scenarioW1 ctx0 true

def scenarioW3 : World := (HexPaste.stop scenarioW2 ctx0).1

def scenarioW4 : World := (HexPaste.resume scenarioW3 ctx0).1

def scenarioW5 : World := World.step (World.step scenarioW4 ctx0 true) ctx0 true

/-
Basic lemmas about the embedding.
-/

theorem World.insert_targets_self (w : World) (ctx : MessageContext) (m : Message) :
    (World.insert w ctx m).targets ctx = some m := by
  simp [World.insert]

theorem World.insert_targets_other (w : World) (ctx c : MessageContext) (m : Message)
    (h : c ≠ ctx) : (World.insert w ctx m).targets c = w.targets c := by
  simp [World.insert, h]

theorem Message.maybe_stop_ok (m : Message) :
    ∃ ms, m.maybe_stop = Except.ok ms ∧ ms.state = MState.stop ∧
      ms.line_number = m.line_number ∧ ms.lines = m.lines := by
  by_cases h : m.state = MState.paste
  · refine ⟨{ m with hook := none, state := MState.stop }, ?_, rfl, rfl, rfl⟩
    simp [Message.maybe_stop, Message.stop, h]
  · have hs : m.state = MState.stop := by cases hm : m.state <;> simp_all
    exact ⟨m, by simp [Message.maybe_stop, h], hs, rfl, rfl⟩

theorem Message.tick_complete (w : World) (m : Message) (r : Bool)
    (h0 : m.remaining_lines = 0) (hreg : (w.targets m.context).isSome) :
    Message.tick w m r =
      ({ w with targets := fun c => if c = m.context then none else w.targets c,
                prints := w.prints ++ [finishedMsg m.context] },
       Except.ok (m, 0)) := by
  simp [Message.tick, HexPaste.remove_target, h0, hreg]

theorem Message.tick_unreachable (w : World) (m : Message)
    (h0 : m.remaining_lines ≠ 0) (hs : m.state = MState.paste) :
    Message.tick w m false =
      ({ w with prints := w.prints ++ [unreachableMsg m.context] },
       Except.ok ({ m with hook := none, state := MState.stop }, 0)) := by
  simp [Message.tick, Message.stop, h0, hs]

theorem Message.tick_send (w : World) (m : Message)
    (h0 : m.remaining_lines ≠ 0) :
    Message.tick w m true =
      (paste_line w m.context (m.lines.getD m.line_number ""),
       Except.ok ({ m with line_number := m.line_number + 1 }, 1)) := by
  simp [Message.tick, h0]

theorem World.step_none (w : World) (ctx : MessageContext) (r : Bool)
    (h : w.targets ctx = none) : World.step w ctx r = w := by
  simp [World.step, h]

theorem World.step_idle (w : World) (ctx : MessageContext) (m : Message) (r : Bool)
    (hm : w.targets ctx = some m) (hh : m.hook = none) : World.step w ctx r = w := by
  simp [World.step, hm, hh]

theorem World.step_send (w : World) (ctx : MessageContext) (m : Message)
    (hm : w.targets ctx = some m) (hc : m.context = ctx)
    (hh : m.hook.isSome) (h0 : m.remaining_lines ≠ 0) :
    World.step w ctx true =
      World.insert (paste_line w ctx (m.lines.getD m.line_number ""))
        ctx { m with line_number := m.line_number + 1 } := by
  unfold World.step
  rw [hm]
  simp only [hh, if_true]
  rw [Message.tick_send w m h0, hc]
  simp [paste_line, hm]

theorem World.step_unreachable (w : World) (ctx : MessageContext) (m : Message)
    (hm : w.targets ctx = some m) (hc : m.context = ctx)
    (hh : m.hook.isSome) (hs : m.state = MState.paste) (h0 : m.remaining_lines ≠ 0) :
    World.step w ctx false =
      World.insert { w with prints := w.prints ++ [unreachableMsg ctx] }
        ctx { m with hook := none, state := MState.stop } := by
  unfold World.step
  rw [hm]
  simp only [hh, if_true]
  rw [Message.tick_unreachable w m h0 hs, hc]
  simp [hm]

theorem World.step_complete (w : World) (ctx : MessageContext) (m : Message) (r : Bool)
    (hm : w.targets ctx = some m) (hc : m.context = ctx)
    (hh : m.hook.isSome) (h0 : m.remaining_lines = 0) :
    World.step w ctx r =
      { w with targets := fun c => if c = ctx then none else w.targets c,
               prints := w.prints ++ [finishedMsg ctx] } := by
  unfold World.step
  rw [hm]
  simp only [hh, if_true]
  rw [Message.tick_complete w m r h0 (by rw [hc, hm]; rfl), hc]
  simp

theorem Message.wf_init (context : MessageContext) (lines : List String) (speed : Int) :
    (Message.init context lines speed).wf := by
  refine ⟨rfl, by simp [Message.init], by simp [Message.init]⟩

theorem Message.wf_paste (m m' : Message) (fresh : Nat)
    (hwf : m.wf) (h : m.paste fresh = Except.ok m') : m'.wf := by
  unfold Message.paste at h
  by_cases hs : m.state = MState.paste
  · simp [hs] at h
  · simp [hs] at h
    subst h
    exact ⟨hwf.1, hwf.2.1, by simp⟩

theorem Message.wf_stop (m m' : Message)
    (hwf : m.wf) (h : m.stop = Except.ok m') : m'.wf := by
  unfold Message.stop at h
  by_cases hs : m.state = MState.stop
  · simp [hs] at h
  · simp [hs] at h
    subst h
    exact ⟨hwf.1, hwf.2.1, by simp⟩

theorem Message.wf_tick (w w' : World) (m m' : Message) (r : Bool) (ret : Nat)
    (hwf : m.wf) (h : Message.tick w m r = (w', Except.ok (m', ret))) : m'.wf := by
  unfold Message.tick at h
  by_cases h0 : m.remaining_lines = 0
  · simp only [h0, if_true] at h
    rcases hrt : HexPaste.remove_target w m.context with e | wr <;> rw [hrt] at h
    · simp at h
    · simp at h
      exact h.2.1 ▸ hwf
  · simp only [h0, if_false] at h
    cases r with
    | false =>
      simp only [if_true] at h
      rcases hst : m.stop with e | ms <;> rw [hst] at h
      · simp at h
      · simp at h
        exact h.2.1 ▸ Message.wf_stop m ms hwf hst
    | true =>
      simp at h
      have hlt : m.line_number < m.total_lines := by
        have := hwf.2.1
        unfold Message.remaining_lines at h0
        omega
      refine h.2.1 ▸ ⟨hwf.1, by simp; omega, by simp [hwf.2.2]⟩

/-- Delivery lemma: with the destination reachable throughout, a
registered active well-formed job delivers, in `k ≤ remaining` ticks, the
payloads of the next `k` source lines in order, printing nothing, and is
afterwards still registered and active with its cursor advanced by `k`. -/
theorem World.run_delivers (k : Nat) :
    ∀ (w : World) (ctx : MessageContext) (m : Message),
      w.targets ctx = some m → m.context = ctx → m.wf → m.state = MState.paste →
      k ≤ m.remaining_lines →
      ∃ m', (World.run w ctx (List.replicate k true)).targets ctx = some m' ∧
        m'.context = ctx ∧ m'.wf ∧ m'.state = MState.paste ∧
        m'.lines = m.lines ∧ m'.total_lines = m.total_lines ∧
        m'.line_number = m.line_number + k ∧ m'.hook = m.hook ∧
        (World.run w ctx (List.replicate k true)).prints = w.prints ∧
        (World.run w ctx (List.replicate k true)).nextHook = w.nextHook ∧
        (World.run w ctx (List.replicate k true)).sent =
          w.sent ++ ((m.lines.drop m.line_number).take k).map
            (fun l => (ctx, paste_line_payload l)) := by
  induction k with
  | zero =>
    intro w ctx m hm hc hwf hs _
    exact ⟨m, hm, hc, hwf, hs, rfl, rfl, rfl, rfl, rfl, rfl, by simp [World.run]⟩
  | succ k ih =>
    intro w ctx m hm hc hwf hs hk
    have h0 : m.remaining_lines ≠ 0 := by omega
    have hh : m.hook.isSome := hwf.2.2.mpr hs
    have hlt : m.line_number < m.lines.length := by
      have h1 := hwf.1
      have h2 := hwf.2.1
      unfold Message.remaining_lines at h0
      omega
    have hstep := World.step_send w ctx m hm hc hh h0
    set m1 : Message := { m with line_number := m.line_number + 1 } with hm1
    set w1 : World :=
      World.insert (paste_line w ctx (m.lines.getD m.line_number "")) ctx m1 with hw1
    have hm1wf : m1.wf := by
      refine ⟨hwf.1, ?_, by simp [hm1, hwf.2.2]⟩
      simp [hm1]
      have := hwf.1
      omega
    have hm1reg : w1.targets ctx = some m1 := World.insert_targets_self _ ctx m1
    have hk1 : k ≤ m1.remaining_lines := by
      simp [hm1, Message.remaining_lines] at *
      omega
    obtain ⟨m', hreg', hc', hwf', hs', hl', ht', hn', hh', hp', hnh', hsent'⟩ :=
      ih w1 ctx m1 hm1reg (by simp [hm1, hc]) hm1wf (by simp [hm1, hs]) hk1
    have hrun : World.run w ctx (List.replicate (k + 1) true) =
        World.run w1 ctx (List.replicate k true) := by
      rw [List.replicate_succ]
      simp [World.run, hstep, hw1]
    refine ⟨m', by rw [hrun]; exact hreg', hc', hwf', hs', by simp [hl', hm1],
      by simp [ht', hm1], by simp [hn', hm1]; omega, by simp [hh', hm1],
      by rw [hrun, hp']; simp [hw1, World.insert, paste_line],
      by rw [hrun, hnh']; simp [hw1, World.insert, paste_line], ?_⟩
    rw [hrun, hsent']
    have hgetD : m.lines.getD m.line_number "" = m.lines[m.line_number] := by
      simp [List.getD_eq_getElem?_getD, List.getElem?_eq_getElem hlt]
    have hsent1 : w1.sent =
        w.sent ++ [(ctx, paste_line_payload (m.lines.getD m.line_number ""))] := by
      simp [hw1, World.insert, paste_line]
    rw [hsent1, List.append_assoc]
    congr 1
    rw [List.drop_eq_getElem_cons hlt, List.take_succ_cons, List.map_cons, hgetD]
    simp [hm1]

/-- Over any sequence of timer firings, everything the system appends to
`sent` at a context is the payload of one of the lines of the job
registered there. -/
theorem World.run_sends_from_lines (flags : List Bool) :
    ∀ (w : World) (ctx : MessageContext) (Y : List String),
      (∀ m, w.targets ctx = some m → m.context = ctx ∧ m.wf ∧ m.lines = Y) →
      ∃ extra, (World.run w ctx flags).sent = w.sent ++ extra ∧
        ∀ p ∈ extra, ∃ l ∈ Y, p = (ctx, paste_line_payload l) := by
  induction flags with
  | nil =>
    intro w ctx Y _
    exact ⟨[], by simp [World.run], by simp⟩
  | cons r rs ih =>
    intro w ctx Y hinv
    have hrun : World.run w ctx (r :: rs) = World.run (World.step w ctx r) ctx rs := rfl
    rcases hm : w.targets ctx with _ | m
    · rw [hrun, World.step_none w ctx r hm]
      exact ih w ctx Y hinv
    · obtain ⟨hc, hwf, hl⟩ := hinv m hm
      rcases hh : m.hook with _ | hk
      · rw [hrun, World.step_idle w ctx m r hm hh]
        exact ih w ctx Y hinv
      · have hhs : m.hook.isSome := by simp [hh]
        by_cases h0 : m.remaining_lines = 0
        · have hstep := World.step_complete w ctx m r hm hc hhs h0
          rw [hrun, hstep]
          set w1 : World :=
            { w with targets := fun c => if c = ctx then none else w.targets c,
                     prints := w.prints ++ [finishedMsg ctx] } with hw1
          have hinv' : ∀ m', w1.targets ctx = some m' →
              m'.context = ctx ∧ m'.wf ∧ m'.lines = Y := by
            intro m' hm'
            simp [hw1] at hm'
          obtain ⟨extra, hsent, hmem⟩ := ih w1 ctx Y hinv'
          exact ⟨extra, by simpa [hw1] using hsent, hmem⟩
        · have hlt : m.line_number < m.lines.length := by
            have h1 := hwf.1
            have h2 := hwf.2.1
            unfold Message.remaining_lines at h0
            omega
          cases r with
          | true =>
            have hstep := World.step_send w ctx m hm hc hhs h0
            rw [hrun, hstep]
            set m1 : Message := { m with line_number := m.line_number + 1 } with hm1
            set w1 : World :=
              World.insert (paste_line w ctx (m.lines.getD m.line_number "")) ctx m1 with hw1
            have hinv' : ∀ m', w1.targets ctx = some m' →
                m'.context = ctx ∧ m'.wf ∧ m'.lines = Y := by
              intro m' hm'
              rw [World.insert_targets_self] at hm'
              cases hm'
              refine ⟨by simp [hm1, hc], ?_, by simp [hm1, hl]⟩
              refine ⟨hwf.1, ?_, by simp [hm1, hwf.2.2]⟩
              simp [hm1]
              have := hwf.1
              omega
            obtain ⟨extra, hsent, hmem⟩ := ih w1 ctx Y hinv'
            refine ⟨(ctx, paste_line_payload (m.lines.getD m.line_number "")) :: extra, ?_, ?_⟩
            · rw [hsent]
              simp [hw1, World.insert, paste_line]
            · intro p hp
              rcases List.mem_cons.mp hp with hp | hp
              · refine ⟨m.lines[m.line_number], by rw [← hl]; exact List.getElem_mem hlt, ?_⟩
                simp [hp, List.getD_eq_getElem?_getD, List.getElem?_eq_getElem hlt]
              · exact hmem p hp
          | false =>
            have hs : m.state = MState.paste := hwf.2.2.mp hhs
            have hstep := World.step_unreachable w ctx m hm hc hhs hs h0
            rw [hrun, hstep]
            set m1 : Message := { m with hook := none, state := MState.stop } with hm1
            set w1 : World :=
              World.insert { w with prints := w.prints ++ [unreachableMsg ctx] } ctx m1 with hw1
            have hinv' : ∀ m', w1.targets ctx = some m' →
                m'.context = ctx ∧ m'.wf ∧ m'.lines = Y := by
              intro m' hm'
              rw [World.insert_targets_self] at hm'
              cases hm'
              exact ⟨by simp [hm1, hc], ⟨hwf.1, hwf.2.1, by simp [hm1]⟩, by simp [hm1, hl]⟩
            obtain ⟨extra, hsent, hmem⟩ := ih w1 ctx Y hinv'
            refine ⟨extra, ?_, hmem⟩
            rw [hsent]
            simp [hw1, World.insert]

theorem Message.paste_ok_fields (m m' : Message) (fresh : Nat)
    (h : m.paste fresh = Except.ok m') :
    m' = { m with hook := some fresh, state := MState.paste } := by
  unfold Message.paste at h
  by_cases hs : m.state = MState.paste <;> simp [hs] at h
  exact h.symm

theorem Message.stop_ok_fields (m m' : Message) (h : m.stop = Except.ok m') :
    m' = { m with hook := none, state := MState.stop } := by
  unfold Message.stop at h
  by_cases hs : m.state = MState.stop <;> simp [hs] at h
  exact h.symm

/-- The three successful outcomes of a tick: completion (job unchanged),
auto-stop on unreachable destination, or one line sent with the cursor
advanced by one. -/
theorem Message.tick_ok_cases (w w' : World) (m m' : Message) (r : Bool) (ret : Nat)
    (h : Message.tick w m r = (w', Except.ok (m', ret))) :
    (m' = m ∧ w'.sent = w.sent) ∨
    (m' = { m with hook := none, state := MState.stop } ∧ w'.sent = w.sent) ∨
    (m' = { m with line_number := m.line_number + 1 } ∧
      w'.sent = w.sent ++ [(m.context, paste_line_payload (m.lines.getD m.line_number ""))] ∧
      m.remaining_lines ≠ 0) := by
  unfold Message.tick at h
  by_cases h0 : m.remaining_lines = 0
  · simp only [h0, if_true] at h
    rcases hrt : HexPaste.remove_target w m.context with e | wr <;> rw [hrt] at h
    · simp at h
    · simp at h
      refine Or.inl ⟨h.2.1.symm, ?_⟩
      unfold HexPaste.remove_target at hrt
      by_cases hreg : (w.targets m.context).isSome <;> simp [hreg] at hrt
      rw [← h.1, ← hrt]
  · simp only [h0, if_false] at h
    cases r with
    | false =>
      simp only [if_true] at h
      rcases hst : m.stop with e | ms <;> rw [hst] at h
      · simp at h
      · simp at h
        refine Or.inr (Or.inl ⟨?_, by rw [← h.1]⟩)
        rw [← h.2.1]
        exact Message.stop_ok_fields m ms hst
    | true =>
      simp at h
      exact Or.inr (Or.inr ⟨h.2.1.symm, by rw [← h.1]; simp [paste_line], h0⟩)

/-- A raised tick leaves `sent` unchanged. -/
theorem Message.tick_error_sent (w w' : World) (m : Message) (r : Bool) (e : Exc)
    (h : Message.tick w m r = (w', Except.error e)) : w'.sent = w.sent := by
  unfold Message.tick at h
  by_cases h0 : m.remaining_lines = 0
  · simp only [h0, if_true] at h
    rcases hrt : HexPaste.remove_target w m.context with e1 | wr <;> rw [hrt] at h <;> simp at h
    rw [← h.1]
  · simp only [h0, if_false] at h
    cases r with
    | false =>
      simp only [if_true] at h
      rcases hst : m.stop with e1 | ms <;> rw [hst] at h <;> simp at h
      rw [← h.1]
    | true => simp at h

/-- One job-level operation preserves well-formedness, never decreases the
cursor, and never changes the line list. -/
theorem Message.applyOp_mono (w : World) (m : Message) (op : MOp) (hwf : m.wf) :
    (Message.applyOp w m op).2.wf ∧
    m.line_number ≤ (Message.applyOp w m op).2.line_number ∧
    (Message.applyOp w m op).2.lines = m.lines := by
  cases op with
  | startOp fresh =>
    rcases hp : m.paste fresh with e | m'
    · simp only [Message.applyOp, hp]
      exact ⟨hwf, le_refl _, trivial⟩
    · simp only [Message.applyOp, hp]
      have h := Message.paste_ok_fields m m' fresh hp
      subst h
      exact ⟨Message.wf_paste m _ fresh hwf hp, le_refl _, rfl⟩
  | stopOp =>
    rcases hp : m.stop with e | m'
    · simp only [Message.applyOp, hp]
      exact ⟨hwf, le_refl _, trivial⟩
    · simp only [Message.applyOp, hp]
      have h := Message.stop_ok_fields m m' hp
      subst h
      exact ⟨Message.wf_stop m _ hwf hp, le_refl _, rfl⟩
  | tickOp r =>
    rcases hp : Message.tick w m r with ⟨w', res⟩
    cases res with
    | error e =>
      simp only [Message.applyOp, hp]
      exact ⟨hwf, le_refl _, trivial⟩
    | ok p =>
      rcases p with ⟨m', ret⟩
      simp only [Message.applyOp, hp]
      have hwf' := Message.wf_tick w w' m m' r ret hwf hp
      rcases Message.tick_ok_cases w w' m m' r ret hp with ⟨hm', _⟩ | ⟨hm', _⟩ | ⟨hm', _, _⟩
      · subst hm'
        exact ⟨hwf', le_refl _, rfl⟩
      · subst hm'
        exact ⟨hwf', le_refl _, rfl⟩
      · subst hm'
        exact ⟨hwf', Nat.le_succ _, rfl⟩

/-- Characterization of `HexPaste.paste_go`: it always succeeds and
installs the started job. -/
theorem HexPaste.paste_go_eq (w : World) (ctx : MessageContext)
    (lines : List String) (speed : Int) :
    HexPaste.paste_go w ctx lines speed =
      ({ World.insert w ctx (startedMessage ctx lines speed w.nextHook) with
          nextHook := w.nextHook + 1,
          prints := w.prints ++ [pastingMsg lines.length ctx] },
       Except.ok ()) := by
  simp [HexPaste.paste_go, Message.init, Message.paste, startedMessage,
    Message.remaining_lines]

/-- Characterization of `HexPaste.paste`: it always succeeds, printing the
replacing diagnostic first when the destination already had a job. -/
theorem HexPaste.paste_eq (w : World) (ctx : MessageContext)
    (lines : List String) (speed : Int) :
    (HexPaste.paste w ctx lines speed).2 = Except.ok () ∧
    (HexPaste.paste w ctx lines speed).1.targets =
      (World.insert w ctx (startedMessage ctx lines speed w.nextHook)).targets ∧
    (HexPaste.paste w ctx lines speed).1.sent = w.sent ∧
    (HexPaste.paste w ctx lines speed).1.nextHook = w.nextHook + 1 ∧
    (w.targets ctx = none →
      (HexPaste.paste w ctx lines speed).1.prints =
        w.prints ++ [pastingMsg lines.length ctx]) ∧
    (∀ old, w.targets ctx = some old →
      (HexPaste.paste w ctx lines speed).1.prints =
        w.prints ++ [replacingMsg ctx, pastingMsg lines.length ctx]) := by
  rcases hm : w.targets ctx with _ | old
  · have heq : HexPaste.paste w ctx lines speed = HexPaste.paste_go w ctx lines speed := by
      unfold HexPaste.paste
      rw [hm]
    rw [heq, HexPaste.paste_go_eq]
    simp [World.insert, hm]
  · obtain ⟨ms, hms, _, _, _⟩ := Message.maybe_stop_ok old
    have heq : HexPaste.paste w ctx lines speed =
        HexPaste.paste_go { w with prints := w.prints ++ [replacingMsg ctx] }
          ctx lines speed := by
      unfold HexPaste.paste
      rw [hm]
      simp only [hms]
    rw [heq, HexPaste.paste_go_eq]
    simp [World.insert, hm]

/-
The claims.
-/

/-- C7: for every line sent by a tick, the payload equals the source line
with trailing whitespace/newline stripped, except that an empty or
all-whitespace line is replaced by a single space; the sent payload is
never zero-length. -/
theorem payload_normalized_nonempty (line : String) (w : World) (m : Message)
    (_hwf : m.wf) (h0 : 0 < m.remaining_lines) :
    0 < (paste_line_payload line).length ∧
    ((pyRstrip line).length = 0 → paste_line_payload line = " ") ∧
    ((pyRstrip line).length ≠ 0 → paste_line_payload line = pyRstrip line) ∧
    (∃ ws, line.data = (pyRstrip line).data ++ ws ∧ ∀ c ∈ ws, isPySpace c = true) ∧
    (Message.tick w m true).1.sent =
      w.sent ++ [(m.context, paste_line_payload (m.lines.getD m.line_number ""))] := by
  have hshow : paste_line_payload line =
      if (pyRstrip line).length = 0 then " " else pyRstrip line := rfl
  refine ⟨?_, ?_, ?_, ?_, ?_⟩
  · rw [hshow]
    by_cases h : (pyRstrip line).length = 0
    · rw [if_pos h]
      decide
    · rw [if_neg h]
      omega
  · intro h
    rw [hshow, if_pos h]
  · intro h
    rw [hshow, if_neg h]
  · refine ⟨(line.data.reverse.takeWhile isPySpace).reverse, ?_, ?_⟩
    · have h1 : line.data.reverse.takeWhile isPySpace ++
          line.data.reverse.dropWhile isPySpace = line.data.reverse :=
        List.takeWhile_append_dropWhile isPySpace line.data.reverse
      calc line.data = line.data.reverse.reverse := (List.reverse_reverse _).symm
        _ = (line.data.reverse.takeWhile isPySpace ++
              line.data.reverse.dropWhile isPySpace).reverse := by rw [h1]
        _ = (pyRstrip line).data ++ (line.data.reverse.takeWhile isPySpace).reverse := by
              rw [List.reverse_append]
              rfl
    · intro c hc
      exact List.mem_takeWhile_imp (List.mem_reverse.mp hc)
  · rw [Message.tick_send w m (by omega)]
    simp [paste_line]

/-- Witness for C7 at the concrete line "hi \t" and the concrete job m0. -/
theorem payload_normalized_nonempty_witness :
    m0.wf ∧ 0 < m0.remaining_lines ∧
    (0 < (paste_line_payload "hi \t").length ∧
     ((pyRstrip "hi \t").length = 0 → paste_line_payload "hi \t" = " ") ∧
     ((pyRstrip "hi \t").length ≠ 0 → paste_line_payload "hi \t" = pyRstrip "hi \t") ∧
     (∃ ws, ("hi \t" : String).data = (pyRstrip "hi \t").data ++ ws ∧
        ∀ c ∈ ws, isPySpace c = true) ∧
     (Message.tick w0 m0 true).1.sent =
       w0.sent ++ [(m0.context, paste_line_payload (m0.lines.getD m0.line_number ""))]) :=
  ⟨by decide, by decide,
   payload_normalized_nonempty "hi \t" w0 m0 (by decide) (by decide)⟩

/-- C9: every command invocation returns EAT_ALL to the host, never
propagates an exception, and communicates the outcome via the diagnostic
sink: a HexPasteError as its one-line message, an unknown exception as
its traceback text. -/
theorem dispatch_always_eats (env : Env) (w : World) (word : List String) :
    (hexpaste_cb env w word).2 = EAT_ALL ∧
    (∀ res : World × Except Exc Unit, (dispatchBoundary res).2 = EAT_ALL) ∧
    (∀ w1 msg, hexpaste_cb_body env w word = (w1, Except.error (Exc.hex msg)) →
      hexpaste_cb env w word = ({ w1 with prints := w1.prints ++ [msg] }, EAT_ALL)) ∧
    (∀ w1 tb, hexpaste_cb_body env w word = (w1, Except.error (Exc.other tb)) →
      hexpaste_cb env w word = ({ w1 with prints := w1.prints ++ [tb] }, EAT_ALL)) ∧
    (∀ w1, hexpaste_cb_body env w word = (w1, Except.ok ()) →
      hexpaste_cb env w word = (w1, EAT_ALL)) := by
  refine ⟨?_, ?_, ?_, ?_, ?_⟩
  · unfold hexpaste_cb
    rcases hb : hexpaste_cb_body env w word with ⟨w1, res⟩
    cases res with
    | ok u => rfl
    | error e => cases e <;> rfl
  · intro res
    rcases res with ⟨w1, res⟩
    cases res with
    | ok u => rfl
    | error e => cases e <;> rfl
  · intro w1 msg h
    unfold hexpaste_cb
    rw [h]
    rfl
  · intro w1 tb h
    unfold hexpaste_cb
    rw [h]
    rfl
  · intro w1 h
    unfold hexpaste_cb
    rw [h]
    rfl

/-- Witness for C9: the bare invocation with no verb reports the
no-parameters diagnostic and still eats the input. -/
theorem dispatch_always_eats_witness :
    hexpaste_cb_body env0 w0 ["hexpaste"] =
      (w0, Except.error
        (Exc.hex "HexPaste: no parameters. See \"/hexpaste help\" for documentation.")) ∧
    hexpaste_cb env0 w0 ["hexpaste"] =
      ({ w0 with prints := w0.prints ++
          ["HexPaste: no parameters. See \"/hexpaste help\" for documentation."] },
       EAT_ALL) :=
  ⟨rfl, (dispatch_always_eats env0 w0 ["hexpaste"]).2.2.1 w0
    "HexPaste: no parameters. See \"/hexpaste help\" for documentation." rfl⟩

/-- C6: wrong-state and missing-entry operations fail with the
corresponding HexPasteError and leave all state unchanged: `start` on an
active job, `stop` on an idle job, and scheduler stop/resume on an
unregistered destination. -/
theorem wrong_state_ops_fail_unchanged (w : World)
    (ctxA ctxI ctxN : MessageContext) (mA mI : Message) (fresh : Nat)
    (hA : mA.state = MState.paste) (hI : mI.state = MState.stop)
    (hwA : w.targets ctxA = some mA) (hwI : w.targets ctxI = some mI)
    (hwN : w.targets ctxN = none) :
    mA.paste fresh = Except.error (Exc.hex (alreadyPastingMsg mA.context)) ∧
    mI.stop = Except.error (Exc.hex (notPastingMsg mI.context)) ∧
    HexPaste.resume w ctxA = (w, Except.error (Exc.hex (alreadyPastingMsg mA.context))) ∧
    HexPaste.stop w ctxI = (w, Except.error (Exc.hex (notPastingMsg mI.context))) ∧
    HexPaste.stop w ctxN = (w, Except.error (Exc.hex (notPastingMsg ctxN))) ∧
    HexPaste.resume w ctxN = (w, Except.error (Exc.hex (notPastingMsg ctxN))) := by
  refine ⟨?_, ?_, ?_, ?_, ?_, ?_⟩
  · simp [Message.paste, hA]
  · simp [Message.stop, hI]
  · unfold HexPaste.resume
    rw [hwA]
    simp [Message.paste, hA]
  · unfold HexPaste.stop
    rw [hwI]
    simp [Message.stop, hI]
  · unfold HexPaste.stop
    rw [hwN]
  · unfold HexPaste.resume
    rw [hwN]

/-- Witness for C6 on the concrete registry wC6 (active job at ctx0,
idle job at ctx1, nothing at ctx2). -/
theorem wrong_state_ops_fail_unchanged_witness :
    mA0.state = MState.paste ∧ mI0.state = MState.stop ∧
    wC6.targets ctx0 = some mA0 ∧ wC6.targets ctx1 = some mI0 ∧
    wC6.targets ctx2 = none ∧
    (mA0.paste 9 = Except.error (Exc.hex (alreadyPastingMsg mA0.context)) ∧
     mI0.stop = Except.error (Exc.hex (notPastingMsg mI0.context)) ∧
     HexPaste.resume wC6 ctx0 = (wC6, Except.error (Exc.hex (alreadyPastingMsg mA0.context))) ∧
     HexPaste.stop wC6 ctx1 = (wC6, Except.error (Exc.hex (notPastingMsg mI0.context))) ∧
     HexPaste.stop wC6 ctx2 = (wC6, Except.error (Exc.hex (notPastingMsg ctx2))) ∧
     HexPaste.resume wC6 ctx2 = (wC6, Except.error (Exc.hex (notPastingMsg ctx2)))) :=
  ⟨rfl, rfl, by decide, by decide, by decide,
   wrong_state_ops_fail_unchanged wC6 ctx0 ctx1 ctx2 mA0 mI0 9
     rfl rfl (by decide) (by decide) (by decide)⟩

/-- C8 counterexample: at the concrete empty registry, removing an unknown
destination raises `Exc.hex` — the very class (`HexPasteError`) used for
the user-level stop-with-no-job error — and the dispatch boundary surfaces
a HexPasteError as the one-line message itself, not as a traceback, so
internal invariant violations are not a distinct, more severe class. -/
theorem internal_error_same_class_counterexample :
    (∃ e, HexPaste.remove_target w0 ctx0 = Except.error e ∧ e.isHexPasteError = true) ∧
    (∃ e, (HexPaste.stop w0 ctx0).2 = Except.error e ∧ e.isHexPasteError = true) ∧
    (dispatchBoundary (w0, Except.error (Exc.hex internalErrorMsg))).1.prints =
      [internalErrorMsg] :=
  ⟨⟨Exc.hex internalErrorMsg, rfl, rfl⟩,
   ⟨Exc.hex (notPastingMsg ctx0), rfl, rfl⟩,
   rfl⟩

/-- C8 (amended): removing an absent destination raises a HexPasteError —
the same class as user/input errors — carrying the internal-error message
text; the dispatch boundary surfaces every HexPasteError as a single
diagnostic line and reserves full-traceback logging for exceptions that
are not HexPasteError instances. -/
theorem internal_error_is_hex_one_line (w : World) (ctx : MessageContext)
    (msg tb : String) (h : w.targets ctx = none) :
    HexPaste.remove_target w ctx = Except.error (Exc.hex internalErrorMsg) ∧
    (Exc.hex internalErrorMsg).isHexPasteError = (Exc.hex msg).isHexPasteError ∧
    dispatchBoundary (w, Except.error (Exc.hex msg)) =
      ({ w with prints := w.prints ++ [msg] }, EAT_ALL) ∧
    dispatchBoundary (w, Except.error (Exc.other tb)) =
      ({ w with prints := w.prints ++ [tb] }, EAT_ALL) := by
  refine ⟨?_, rfl, rfl, rfl⟩
  simp [HexPaste.remove_target, h]

/-- Witness for the amended C8 at the empty registry. -/
theorem internal_error_is_hex_one_line_witness :
    w0.targets ctx0 = none ∧
    (HexPaste.remove_target w0 ctx0 = Except.error (Exc.hex internalErrorMsg) ∧
     (Exc.hex internalErrorMsg).isHexPasteError = (Exc.hex "a").isHexPasteError ∧
     dispatchBoundary (w0, Except.error (Exc.hex "a")) =
       ({ w0 with prints := w0.prints ++ ["a"] }, EAT_ALL) ∧
     dispatchBoundary (w0, Except.error (Exc.other "b")) =
       ({ w0 with prints := w0.prints ++ ["b"] }, EAT_ALL)) :=
  ⟨rfl, internal_error_is_hex_one_line w0 ctx0 "a" "b" rfl⟩

/-- C5: a tick of a registered job with no remaining lines removes it from
the registry with the finished diagnostic and the timer-stop flag 0; the
check happens before resolving the destination, so the outcome is the
same for any reachability and nothing is ever sent. -/
theorem tick_complete_removes_first (w : World) (ctx : MessageContext)
    (m : Message) (r : Bool)
    (hm : w.targets ctx = some m) (hc : m.context = ctx)
    (hh : m.hook.isSome) (h0 : m.remaining_lines = 0) :
    Message.tick w m r = Message.tick w m true ∧
    (Message.tick w m r).2 = Except.ok (m, 0) ∧
    World.step w ctx r =
      { w with targets := fun c => if c = ctx then none else w.targets c,
               prints := w.prints ++ [finishedMsg ctx] } ∧
    (World.step w ctx r).targets ctx = none ∧
    (World.step w ctx r).sent = w.sent := by
  have hreg : (w.targets m.context).isSome := by
    rw [hc, hm]
    rfl
  have h1 := Message.tick_complete w m r h0 hreg
  have h2 := Message.tick_complete w m true h0 hreg
  have h3 := World.step_complete w ctx m r hm hc hh h0
  refine ⟨h1.trans h2.symm, by rw [h1], h3, by rw [h3]; simp, by rw [h3]⟩

/-- Witness for C5 at the concrete exhausted job mDone. -/
theorem tick_complete_removes_first_witness :
    wDone.targets ctx0 = some mDone ∧ mDone.context = ctx0 ∧
    mDone.hook.isSome = true ∧ mDone.remaining_lines = 0 ∧
    (Message.tick wDone mDone false = Message.tick wDone mDone true ∧
     (Message.tick wDone mDone false).2 = Except.ok (mDone, 0) ∧
     World.step wDone ctx0 false =
       { wDone with targets := fun c => if c = ctx0 then none else wDone.targets c,
                    prints := wDone.prints ++ [finishedMsg ctx0] } ∧
     (World.step wDone ctx0 false).targets ctx0 = none ∧
     (World.step wDone ctx0 false).sent = wDone.sent) :=
  ⟨by decide, rfl, rfl, rfl,
   tick_complete_removes_first wDone ctx0 mDone false (by decide) rfl rfl rfl⟩

/-- C10: pasting an empty sequence of lines succeeds: a job is created,
registered and started, the diagnostic reports 0 lines, and the first tick
removes the job with the finished diagnostic without sending anything. -/
theorem paste_empty_lines_ok (w : World) (ctx : MessageContext) (speed : Int) (r : Bool) :
    (HexPaste.paste w ctx [] speed).2 = Except.ok () ∧
    ((HexPaste.paste w ctx [] speed).1.targets ctx =
      some (startedMessage ctx [] speed w.nextHook) ∧
      (startedMessage ctx [] speed w.nextHook).lines = [] ∧
      (startedMessage ctx [] speed w.nextHook).line_number = 0 ∧
      (startedMessage ctx [] speed w.nextHook).state = MState.paste ∧
      (startedMessage ctx [] speed w.nextHook).remaining_lines = 0) ∧
    (HexPaste.paste w ctx [] speed).1.prints.getLast? = some (pastingMsg 0 ctx) ∧
    (HexPaste.paste w ctx [] speed).1.sent = w.sent ∧
    (World.step (HexPaste.paste w ctx [] speed).1 ctx r).targets ctx = none ∧
    (World.step (HexPaste.paste w ctx [] speed).1 ctx r).sent = w.sent ∧
    (World.step (HexPaste.paste w ctx [] speed).1 ctx r).prints =
      (HexPaste.paste w ctx [] speed).1.prints ++ [finishedMsg ctx] := by
  obtain ⟨hok, htg, hsent, hnh, hpn, hps⟩ := HexPaste.paste_eq w ctx [] speed
  set w1 : World := (HexPaste.paste w ctx [] speed).1 with hw1
  have hreg : w1.targets ctx = some (startedMessage ctx [] speed w.nextHook) := by
    rw [htg]
    exact World.insert_targets_self w ctx _
  have hstep := World.step_complete w1 ctx (startedMessage ctx [] speed w.nextHook) r
    hreg rfl rfl rfl
  have hlast : w1.prints.getLast? = some (pastingMsg 0 ctx) := by
    rcases hwt : w.targets ctx with _ | old
    · rw [hpn hwt]
      simp
    · rw [hps old hwt]
      simp
  refine ⟨hok, ⟨hreg, rfl, rfl, rfl, rfl⟩, hlast, hsent, ?_, ?_, ?_⟩
  · rw [hstep]
    simp
  · rw [hstep]
    exact hsent
  · rw [hstep]

/-- C1: over any sequence of job operations the cursor is monotonically
non-decreasing and never exceeds the number of lines (well-formedness is
preserved); a single successful tick sends a line if and only if it
advances the cursor by exactly one, and a raised tick sends nothing. -/
theorem cursor_monotone_bounded_atomic (w : World) (m : Message)
    (ops : List MOp) (r : Bool) (hwf : m.wf) :
    (Message.applyOps w m ops).2.wf ∧
    m.line_number ≤ (Message.applyOps w m ops).2.line_number ∧
    (Message.applyOps w m ops).2.line_number ≤
      (Message.applyOps w m ops).2.lines.length ∧
    (∀ w' m' ret, Message.tick w m r = (w', Except.ok (m', ret)) →
      ((w'.sent.length = w.sent.length + 1 ↔ m'.line_number = m.line_number + 1) ∧
       (w'.sent = w.sent ↔ m'.line_number = m.line_number))) ∧
    (∀ w' e, Message.tick w m r = (w', Except.error e) → w'.sent = w.sent) := by
  have trace : ∀ (ops : List MOp) (w : World) (m : Message), m.wf →
      (Message.applyOps w m ops).2.wf ∧
      m.line_number ≤ (Message.applyOps w m ops).2.line_number := by
    intro ops
    induction ops with
    | nil =>
      intro w m hwf
      exact ⟨hwf, le_refl _⟩
    | cons op ops ih =>
      intro w m hwf
      obtain ⟨hwf1, hmono1, _⟩ := Message.applyOp_mono w m op hwf
      obtain ⟨hwf2, hmono2⟩ := ih (Message.applyOp w m op).1 (Message.applyOp w m op).2 hwf1
      exact ⟨hwf2, le_trans hmono1 hmono2⟩
  obtain ⟨hwfF, hmono⟩ := trace ops w m hwf
  refine ⟨hwfF, hmono, ?_, ?_, ?_⟩
  · have h1 := hwfF.1
    have h2 := hwfF.2.1
    omega
  · intro w' m' ret h
    rcases Message.tick_ok_cases w w' m m' r ret h with ⟨hm', hs⟩ | ⟨hm', hs⟩ | ⟨hm', hs, _⟩
    · have hcur : m'.line_number = m.line_number := by rw [hm']
      refine ⟨⟨?_, ?_⟩, ⟨fun _ => hcur, fun _ => hs⟩⟩
      · intro h1
        rw [hs] at h1
        omega
      · intro h1
        rw [hcur] at h1
        omega
    · have hcur : m'.line_number = m.line_number := by rw [hm']
      refine ⟨⟨?_, ?_⟩, ⟨fun _ => hcur, fun _ => hs⟩⟩
      · intro h1
        rw [hs] at h1
        omega
      · intro h1
        rw [hcur] at h1
        omega
    · have hcur : m'.line_number = m.line_number + 1 := by rw [hm']
      have hlen : w'.sent.length = w.sent.length + 1 := by
        rw [hs]
        simp
      refine ⟨⟨fun _ => hcur, fun _ => hlen⟩, ⟨?_, ?_⟩⟩
      · intro h1
        have h2 := congrArg List.length h1
        omega
      · intro h1
        exfalso
        omega
  · intro w' e h
    exact Message.tick_error_sent w w' m r e h

/-- Witness for C1 on the concrete job m0 and a tick/stop/start trace. -/
theorem cursor_monotone_bounded_atomic_witness :
    m0.wf ∧
    (Message.applyOps w0 m0 [MOp.tickOp true, MOp.stopOp, MOp.startOp 3]).2.wf ∧
    m0.line_number ≤
      (Message.applyOps w0 m0 [MOp.tickOp true, MOp.stopOp, MOp.startOp 3]).2.line_number ∧
    (Message.applyOps w0 m0 [MOp.tickOp true, MOp.stopOp, MOp.startOp 3]).2.line_number ≤
      (Message.applyOps w0 m0 [MOp.tickOp true, MOp.stopOp, MOp.startOp 3]).2.lines.length :=
  ⟨by decide,
   (cursor_monotone_bounded_atomic w0 m0 [MOp.tickOp true, MOp.stopOp, MOp.startOp 3]
     true (by decide)).1,
   (cursor_monotone_bounded_atomic w0 m0 [MOp.tickOp true, MOp.stopOp, MOp.startOp 3]
     true (by decide)).2.1,
   (cursor_monotone_bounded_atomic w0 m0 [MOp.tickOp true, MOp.stopOp, MOp.startOp 3]
     true (by decide)).2.2.1⟩

/-- C2: stop then start (resume) continues from the same cursor with no
line skipped or repeated; concretely, pasting "a","b","c" at interval 10,
ticking once (cursor 1), stopping, resuming and ticking twice sends "b"
then "c" and never re-sends "a". -/
theorem stop_resume_no_skip_no_repeat (m : Message) (fresh : Nat)
    (hs : m.state = MState.paste) :
    (∃ ms m', m.stop = Except.ok ms ∧ ms.paste fresh = Except.ok m' ∧
      m'.line_number = m.line_number ∧ m'.lines = m.lines ∧
      m'.total_lines = m.total_lines ∧ m'.state = MState.paste) ∧
    (HexPaste.paste w0 ctx0 ["a", "b", "c"] 10).2 = Except.ok () ∧
    scenarioW2.sent = [(ctx0, "a")] ∧
    scenarioW2.targets ctx0 =
      some { context := ctx0, lines := ["a", "b", "c"], line_number := 1,
             total_lines := 3, speed := 10, hook := some 0, state := MState.paste } ∧
    (HexPaste.stop scenarioW2 ctx0).2 = Except.ok () ∧
    scenarioW3.targets ctx0 =
      some { context := ctx0, lines := ["a", "b", "c"], line_number := 1,
             total_lines := 3, speed := 10, hook := none, state := MState.stop } ∧
    (HexPaste.resume scenarioW3 ctx0).2 = Except.ok () ∧
    scenarioW5.sent = [(ctx0, "a"), (ctx0, "b"), (ctx0, "c")] ∧
    scenarioW5.sent.count (ctx0, "a") = 1 := by
  have hns : ¬(m.state = MState.stop) := by
    rw [hs]
    decide
  refine ⟨⟨{ m with hook := none, state := MState.stop },
          { m with hook := some fresh, state := MState.paste },
          ?_, ?_, rfl, rfl, rfl, rfl⟩,
        rfl, by decide, by decide, rfl, by decide, rfl,
        by decide, by decide⟩
  · unfold Message.stop
    rw [if_neg hns]
  · unfold Message.paste
    rw [if_neg (fun hcon => MState.noConfusion hcon)]

/-- Witness for C2 at the concrete active job mA0 and handle 7. -/
theorem stop_resume_no_skip_no_repeat_witness :
    mA0.state = MState.paste ∧
    ((∃ ms m', mA0.stop = Except.ok ms ∧ ms.paste 7 = Except.ok m' ∧
        m'.line_number = mA0.line_number ∧ m'.lines = mA0.lines ∧
        m'.total_lines = mA0.total_lines ∧ m'.state = MState.paste) ∧
     (HexPaste.paste w0 ctx0 ["a", "b", "c"] 10).2 = Except.ok () ∧
     scenarioW2.sent = [(ctx0, "a")] ∧
     scenarioW2.targets ctx0 =
       some { context := ctx0, lines := ["a", "b", "c"], line_number := 1,
              total_lines := 3, speed := 10, hook := some 0, state := MState.paste } ∧
     (HexPaste.stop scenarioW2 ctx0).2 = Except.ok () ∧
     scenarioW3.targets ctx0 =
       some { context := ctx0, lines := ["a", "b", "c"], line_number := 1,
              total_lines := 3, speed := 10, hook := none, state := MState.stop } ∧
     (HexPaste.resume scenarioW3 ctx0).2 = Except.ok () ∧
     scenarioW5.sent = [(ctx0, "a"), (ctx0, "b"), (ctx0, "c")] ∧
     scenarioW5.sent.count (ctx0, "a") = 1) :=
  ⟨rfl, stop_resume_no_skip_no_repeat mA0 7 rfl⟩

/-- C4: a tick whose destination lookup fails prints the unreachable
diagnostic, moves the job to the stop state with cursor preserved and
timer handle cleared, returns the timer-stop flag 0, leaves the job
registered, and a later resume delivers exactly the remaining lines in
their original order. -/
theorem unreachable_tick_idle_then_resume (w : World) (ctx : MessageContext)
    (m : Message) (hm : w.targets ctx = some m) (hc : m.context = ctx)
    (hwf : m.wf) (hs : m.state = MState.paste) (h0 : m.remaining_lines ≠ 0) :
    (Message.tick w m false).2 =
      Except.ok ({ m with hook := none, state := MState.stop }, 0) ∧
    (World.step w ctx false).targets ctx =
      some { m with hook := none, state := MState.stop } ∧
    (World.step w ctx false).prints = w.prints ++ [unreachableMsg ctx] ∧
    (World.step w ctx false).sent = w.sent ∧
    (HexPaste.resume (World.step w ctx false) ctx).2 = Except.ok () ∧
    (World.run (HexPaste.resume (World.step w ctx false) ctx).1 ctx
        (List.replicate m.remaining_lines true)).sent =
      w.sent ++ (m.lines.drop m.line_number).map (fun l => (ctx, paste_line_payload l)) := by
  have hh : m.hook.isSome := hwf.2.2.mpr hs
  set mStop : Message := { m with hook := none, state := MState.stop } with hmStop
  set wS : World := World.step w ctx false with hwS
  have hstep : wS = World.insert { w with prints := w.prints ++ [unreachableMsg ctx] } ctx mStop :=
    World.step_unreachable w ctx m hm hc hh hs h0
  have htick := Message.tick_unreachable w m h0 hs
  have h1 : (Message.tick w m false).2 = Except.ok (mStop, 0) := by
    rw [htick]
  have hreg1 : wS.targets ctx = some mStop := by
    rw [hstep]
    exact World.insert_targets_self _ ctx _
  have hpr : wS.prints = w.prints ++ [unreachableMsg ctx] := by
    rw [hstep]
    rfl
  have hsentS : wS.sent = w.sent := by
    rw [hstep]
    rfl
  set mRes : Message := { m with hook := some wS.nextHook, state := MState.paste } with hmRes
  have hres : HexPaste.resume wS ctx =
      ({ World.insert wS ctx mRes with
          nextHook := wS.nextHook + 1,
          prints := wS.prints ++ [resumedMsg mRes.remaining_lines ctx] },
       Except.ok ()) := by
    unfold HexPaste.resume
    rw [hreg1]
    rfl
  have hregR : (HexPaste.resume wS ctx).1.targets ctx = some mRes := by
    rw [hres]
    exact World.insert_targets_self _ ctx _
  have hwfR : mRes.wf := ⟨hwf.1, hwf.2.1, by simp [hmRes]⟩
  obtain ⟨mF, _, _, _, _, _, _, _, _, _, _, hsentRun⟩ :=
    World.run_delivers m.remaining_lines (HexPaste.resume wS ctx).1 ctx mRes
      hregR hc hwfR rfl (le_refl _)
  refine ⟨h1, hreg1, hpr, hsentS, by rw [hres], ?_⟩
  rw [hsentRun]
  have hsentR : (HexPaste.resume wS ctx).1.sent = w.sent := by
    rw [hres]
    simpa [World.insert] using hsentS
  rw [hsentR]
  have hklen : (m.lines.drop m.line_number).length = m.remaining_lines := by
    rw [List.length_drop]
    unfold Message.remaining_lines
    rw [hwf.1]
  have htake : (m.lines.drop m.line_number).take m.remaining_lines =
      m.lines.drop m.line_number := by
    rw [← hklen]
    simp
  rw [htake]

/-- Witness for C4 at the concrete job mC4 with three lines remaining. -/
theorem unreachable_tick_idle_then_resume_witness :
    wC4.targets ctx0 = some mC4 ∧ mC4.wf ∧ mC4.state = MState.paste ∧
    mC4.remaining_lines ≠ 0 ∧
    ((Message.tick wC4 mC4 false).2 =
       Except.ok ({ mC4 with hook := none, state := MState.stop }, 0) ∧
     (World.step wC4 ctx0 false).targets ctx0 =
       some { mC4 with hook := none, state := MState.stop } ∧
     (World.step wC4 ctx0 false).prints = wC4.prints ++ [unreachableMsg ctx0] ∧
     (World.step wC4 ctx0 false).sent = wC4.sent ∧
     (HexPaste.resume (World.step wC4 ctx0 false) ctx0).2 = Except.ok () ∧
     (World.run (HexPaste.resume (World.step wC4 ctx0 false) ctx0).1 ctx0
         (List.replicate mC4.remaining_lines true)).sent =
       wC4.sent ++ (mC4.lines.drop mC4.line_number).map
         (fun l => (ctx0, paste_line_payload l))) :=
  ⟨by decide, by decide, rfl, by decide,
   unreachable_tick_idle_then_resume wC4 ctx0 mC4 (by decide) rfl (by decide) rfl (by decide)⟩

/-- C3: pasting content Y to a destination that already has a registered
job stops the old job without raising, emits the replacing diagnostic,
installs a fresh started job with cursor 0 for Y, and afterwards every
line delivered at that destination is a payload of Y — a line whose
payload is not among Y's payloads is never sent. -/
theorem paste_replace_delivers_only_new (w : World) (ctx : MessageContext)
    (oldM : Message) (Y : List String) (speed : Int)
    (hold : w.targets ctx = some oldM) :
    (∃ ms, oldM.maybe_stop = Except.ok ms ∧ ms.state = MState.stop) ∧
    (HexPaste.paste w ctx Y speed).2 = Except.ok () ∧
    (HexPaste.paste w ctx Y speed).1.prints =
      w.prints ++ [replacingMsg ctx, pastingMsg Y.length ctx] ∧
    (HexPaste.paste w ctx Y speed).1.targets ctx =
      some (startedMessage ctx Y speed w.nextHook) ∧
    (startedMessage ctx Y speed w.nextHook).line_number = 0 ∧
    (startedMessage ctx Y speed w.nextHook).state = MState.paste ∧
    (HexPaste.paste w ctx Y speed).1.sent = w.sent ∧
    (∀ flags, ∃ extra,
      (World.run (HexPaste.paste w ctx Y speed).1 ctx flags).sent = w.sent ++ extra ∧
      (∀ p ∈ extra, ∃ l ∈ Y, p = (ctx, paste_line_payload l)) ∧
      (∀ x, (ctx, paste_line_payload x) ∈ extra →
        paste_line_payload x ∈ Y.map paste_line_payload)) := by
  obtain ⟨hok, htg, hsent, hnh, hpn, hps⟩ := HexPaste.paste_eq w ctx Y speed
  obtain ⟨ms, hms, hmsS, _, _⟩ := Message.maybe_stop_ok oldM
  have hreg : (HexPaste.paste w ctx Y speed).1.targets ctx =
      some (startedMessage ctx Y speed w.nextHook) := by
    rw [htg]
    exact World.insert_targets_self w ctx _
  refine ⟨⟨ms, hms, hmsS⟩, hok, hps oldM hold, hreg, rfl, rfl, hsent, ?_⟩
  intro flags
  have hinv : ∀ mm, (HexPaste.paste w ctx Y speed).1.targets ctx = some mm →
      mm.context = ctx ∧ mm.wf ∧ mm.lines = Y := by
    intro mm hmm
    rw [hreg] at hmm
    cases hmm
    exact ⟨rfl, ⟨rfl, Nat.zero_le _, by simp [startedMessage]⟩, rfl⟩
  obtain ⟨extra, hrun, hmem⟩ := World.run_sends_from_lines flags _ ctx Y hinv
  refine ⟨extra, by rw [hrun, hsent], hmem, ?_⟩
  intro x hx
  obtain ⟨l, hl, heq⟩ := hmem _ hx
  have hpay : paste_line_payload x = paste_line_payload l := congrArg Prod.snd heq
  rw [hpay]
  exact List.mem_map_of_mem _ hl

/-- Witness for C3: replacing the active job at ctx0 with new content. -/
theorem paste_replace_delivers_only_new_witness :
    wC6.targets ctx0 = some mA0 ∧
    (HexPaste.paste wC6 ctx0 ["n1", ""] 20).2 = Except.ok () ∧
    (HexPaste.paste wC6 ctx0 ["n1", ""] 20).1.prints =
      wC6.prints ++ [replacingMsg ctx0, pastingMsg (["n1", ""] : List String).length ctx0] ∧
    (HexPaste.paste wC6 ctx0 ["n1", ""] 20).1.targets ctx0 =
      some (startedMessage ctx0 ["n1", ""] 20 wC6.nextHook) ∧
    (HexPaste.paste wC6 ctx0 ["n1", ""] 20).1.sent = wC6.sent :=
  ⟨by decide,
   (paste_replace_delivers_only_new wC6 ctx0 mA0 ["n1", ""] 20 (by decide)).2.1,
   (paste_replace_delivers_only_new wC6 ctx0 mA0 ["n1", ""] 20 (by decide)).2.2.1,
   (paste_replace_delivers_only_new wC6 ctx0 mA0 ["n1", ""] 20 (by decide)).2.2.2.1,
   (paste_replace_delivers_only_new wC6 ctx0 mA0 ["n1", ""] 20 (by decide)).2.2.2.2.2.2.1⟩
